import Mathlib

set_option maxHeartbeats 1000000

/-!
Verification of the token-disambiguation layer of `src/V3ParseImp.cpp`
(Verilator's parser internals): the lookahead structural scanners
(`tokenPipeScanBracket`, `tokenPipeScanParam`, `tokenPipeScanTypeEq`,
`tokenPipeScanIdCell`), the token reclassification pipeline
(`tokenPipeline`, `tokenPipelineId`), the symbol-aware classification
(`tokenPipelineSym`), the nested source-location stack (`lexPpline`),
lint save/restore, and the preprocessor buffer drain (`ppInputToLex`).

Tokens are modelled by the inductive `Tok`; the lexer's end-of-input
sentinel (token value 0 in the source) is `Tok.eof`.  The pending token
stream seen through `tokenPeekp` is a `List Tok`: positions beyond the
list hold the sentinel, mirroring the lexer which returns 0 forever at
end of input.
-/

namespace VerilatorParse

/-- Token kinds used by the disambiguation pipeline, mirroring the bison
token ids appearing in `V3ParseImp.cpp`.  Single-character tokens such as
`'('` are given word names.  `eof` is the token value 0. -/
inductive Tok where
  | eof
  | lparen
  | rparen
  | lbrack
  | rbrack
  | lcurly
  | colon
  | semi
  | atSign
  | hash
  | dot
  | yP_COLONCOLON
  | yP_PAR__STRENGTH
  | yP_COLON__BEGIN
  | yP_COLON__FORK
  | yP_EQUAL
  | yP_NOTEQUAL
  | yP_CASEEQUAL
  | yP_CASENOTEQUAL
  | yaID__LEX
  | yaID__CC
  | yaID__ETC
  | yaID__aCELL
  | yaID__aTYPE
  | yaINTNUM
  | yaFLOATNUM
  | yaTIMENUM
  | yBEGIN
  | yFORK
  | yREF
  | yCLOCKING
  | yCLASS
  | yINTERFACE
  | yCONSTRAINT
  | yCONST__LEX
  | yCONST__REF
  | yCONST__ETC
  | yGLOBAL__LEX
  | yGLOBAL__CLOCKING
  | yGLOBAL__ETC
  | yLOCAL__LEX
  | yLOCAL__COLONCOLON
  | yLOCAL__ETC
  | yNEW__LEX
  | yNEW__PAREN
  | yNEW__ETC
  | ySTATIC__LEX
  | ySTATIC__CONSTRAINT
  | ySTATIC__ETC
  | yTYPE__LEX
  | yTYPE__EQ
  | yTYPE__ETC
  | yVIRTUAL__LEX
  | yVIRTUAL__CLASS
  | yVIRTUAL__INTERFACE
  | yVIRTUAL__anyID
  | yVIRTUAL__ETC
  | yWITH__LEX
  | yWITH__PAREN
  | yWITH__BRA
  | yWITH__CUR
  | yWITH__ETC
  | ygenSTRENGTH
  | ySUPPLY0
  | ySUPPLY1
  | ySTRONG0
  | ySTRONG1
  | yPULL0
  | yPULL1
  | yWEAK0
  | yWEAK1
  | yHIGHZ0
  | yHIGHZ1
deriving DecidableEq, Repr

/-- The lookahead view `tokenPeekp(depth)->token`: the token at position
`depth` of the pending stream.  Positions past the end of the stream
yield the end-of-input sentinel, as the lexer returns token 0 forever at
end of input. -/
def tokenPeek (s : List Tok) (depth : Nat) : Tok :=
  s.getD depth Tok.eof

theorem tokenPeek_ne_eof_lt {s : List Tok} {d : Nat}
    (h : tokenPeek s d ≠ Tok.eof) : d < s.length := by
  by_contra hc
  have hn : s[d]? = none := List.getElem?_eq_none (Nat.le_of_not_lt hc)
  exact h (by simp [tokenPeek, List.getD, hn])

/-- Loop of `tokenPipeScanBracket` (source lines 416-439), flattened into
a tail-recursive automaton on `(depth, bra)`.  `bra = 0` is the outer
`while (tokenPeekp(depth)->token == '[')` test; `bra ≥ 1` is the inner
do-while that scans one balanced group (EOF inside a group returns the
original `inDepth`). -/
def scanBracketLoop (s : List Tok) (inDepth depth bra : Nat) : Nat :=
  if bra = 0 then
    if h : tokenPeek s depth = Tok.lbrack then
      scanBracketLoop s inDepth (depth + 1) 1
    else depth
  else if h0 : tokenPeek s depth = Tok.eof then inDepth
  else if tokenPeek s depth = Tok.lbrack then
    scanBracketLoop s inDepth (depth + 1) (bra + 1)
  else if tokenPeek s depth = Tok.rbrack then
    scanBracketLoop s inDepth (depth + 1) (bra - 1)
  else scanBracketLoop s inDepth (depth + 1) bra
termination_by s.length - depth
decreasing_by
  all_goals
    have hlt : depth < s.length := tokenPeek_ne_eof_lt (by simp_all)
    omega

/-- `V3ParseImp::tokenPipeScanBracket`: scans `[ '['...']' ]*` starting
at `inDepth`; returns the position after the balanced bracket groups, or
`inDepth` if end of input is hit inside an unclosed group. -/
def tokenPipeScanBracket (s : List Tok) (inDepth : Nat) : Nat :=
  scanBracketLoop s inDepth inDepth 0

/-- Loop of `tokenPipeScanParam` (source lines 462-478): scans forward
from `depth` with `parens` open parentheses; returns the position just
past the parenthesis closing the group, or `inDepth` if end of input is
hit first. -/
def scanParamLoop (s : List Tok) (inDepth depth parens : Nat) : Nat :=
  if h0 : tokenPeek s depth = Tok.eof then inDepth
  else if tokenPeek s depth = Tok.lparen then
    scanParamLoop s inDepth (depth + 1) (parens + 1)
  else if tokenPeek s depth = Tok.rparen then
    if parens = 1 then depth + 1
    else scanParamLoop s inDepth (depth + 1) (parens - 1)
  else scanParamLoop s inDepth (depth + 1) parens
termination_by s.length - depth
decreasing_by
  all_goals
    have hlt : depth < s.length := tokenPeek_ne_eof_lt (by simp_all)
    omega

/-- `V3ParseImp::tokenPipeScanParam`: matches `'#' '(' ... ')'`, or (for
cells) `'#'` followed by a single number/time/identifier literal; any
other shape, or end of input mid-group, returns `inDepth`. -/
def tokenPipeScanParam (s : List Tok) (inDepth : Nat) (forCell : Bool) : Nat :=
  if tokenPeek s inDepth ≠ Tok.hash then inDepth
  else
    if tokenPeek s (inDepth + 1) ≠ Tok.lparen then
      if !forCell then inDepth
      else
        let ntoken := tokenPeek s (inDepth + 1)
        if ntoken = Tok.yaINTNUM ∨ ntoken = Tok.yaFLOATNUM ∨ ntoken = Tok.yaTIMENUM
            ∨ ntoken = Tok.yaID__LEX then
          inDepth + 2
        else inDepth
    else scanParamLoop s inDepth (inDepth + 2) 1

/-- Loop of `tokenPipeScanTypeEq` (source lines 488-504).  Unlike the
other two scanners, hitting end of input inside the group `break`s and
returns the current position (the sentinel's position), not the input
position. -/
def scanTypeEqLoop (s : List Tok) (depth parens : Nat) : Nat :=
  if h0 : tokenPeek s depth = Tok.eof then depth
  else if tokenPeek s depth = Tok.lparen then
    scanTypeEqLoop s (depth + 1) (parens + 1)
  else if tokenPeek s depth = Tok.rparen then
    if parens = 1 then depth + 1
    else scanTypeEqLoop s (depth + 1) (parens - 1)
  else scanTypeEqLoop s (depth + 1) parens
termination_by s.length - depth
decreasing_by
  all_goals
    have hlt : depth < s.length := tokenPeek_ne_eof_lt (by simp_all)
    omega

/-- `V3ParseImp::tokenPipeScanTypeEq`: given a position assumed to hold
`'('`, scans the balanced group and returns the position just past the
matching `')'`; if the position does not hold `'('` the input position is
returned unchanged. -/
def tokenPipeScanTypeEq (s : List Tok) (depth : Nat) : Nat :=
  if tokenPeek s depth ≠ Tok.lparen then depth
  else scanTypeEqLoop s (depth + 1) 1

/-- `V3ParseImp::tokenPipeScanIdCell`: matches the cell-instantiation
shape `[ '#' params ] yaID [ '['...']' ]* '('` starting at `depthIn`,
returning the position of the final `'('`, or `depthIn` on a miss. -/
def tokenPipeScanIdCell (s : List Tok) (depthIn : Nat) : Nat :=
  let depth := tokenPipeScanParam s depthIn true
  if tokenPeek s depth ≠ Tok.yaID__LEX then depthIn
  else
    let depth2 := tokenPipeScanBracket s (depth + 1)
    if tokenPeek s depth2 ≠ Tok.lparen then depthIn
    else depth2

/-! Step lemmas for the scanner loops: one unfolding of each branch. -/

theorem scanBracketLoop_outer_enter {s : List Tok} {depth : Nat} (inD : Nat)
    (h : tokenPeek s depth = Tok.lbrack) :
    scanBracketLoop s inD depth 0 = scanBracketLoop s inD (depth + 1) 1 := by
  conv_lhs => rw [scanBracketLoop]
  simp [h]

theorem scanBracketLoop_outer_stop {s : List Tok} {depth : Nat} (inD : Nat)
    (h : tokenPeek s depth ≠ Tok.lbrack) :
    scanBracketLoop s inD depth 0 = depth := by
  conv_lhs => rw [scanBracketLoop]
  simp [h]

theorem scanBracketLoop_eof {s : List Tok} {depth bra : Nat} (inD : Nat) (hb : bra ≠ 0)
    (h : tokenPeek s depth = Tok.eof) :
    scanBracketLoop s inD depth bra = inD := by
  conv_lhs => rw [scanBracketLoop]
  simp [h, hb]

theorem scanBracketLoop_open {s : List Tok} {depth bra : Nat} (inD : Nat) (hb : bra ≠ 0)
    (h : tokenPeek s depth = Tok.lbrack) :
    scanBracketLoop s inD depth bra = scanBracketLoop s inD (depth + 1) (bra + 1) := by
  conv_lhs => rw [scanBracketLoop]
  simp [h, hb]

theorem scanBracketLoop_close {s : List Tok} {depth bra : Nat} (inD : Nat) (hb : bra ≠ 0)
    (h : tokenPeek s depth = Tok.rbrack) :
    scanBracketLoop s inD depth bra = scanBracketLoop s inD (depth + 1) (bra - 1) := by
  conv_lhs => rw [scanBracketLoop]
  simp [h, hb]

theorem scanBracketLoop_other {s : List Tok} {depth bra : Nat} (inD : Nat) (hb : bra ≠ 0)
    (h0 : tokenPeek s depth ≠ Tok.eof) (h1 : tokenPeek s depth ≠ Tok.lbrack)
    (h2 : tokenPeek s depth ≠ Tok.rbrack) :
    scanBracketLoop s inD depth bra = scanBracketLoop s inD (depth + 1) bra := by
  conv_lhs => rw [scanBracketLoop]
  simp [h0, h1, h2, hb]

theorem scanParamLoop_eof {s : List Tok} {depth parens : Nat} (inD : Nat)
    (h : tokenPeek s depth = Tok.eof) :
    scanParamLoop s inD depth parens = inD := by
  conv_lhs => rw [scanParamLoop]
  simp [h]

theorem scanParamLoop_open {s : List Tok} {depth parens : Nat} (inD : Nat)
    (h : tokenPeek s depth = Tok.lparen) :
    scanParamLoop s inD depth parens = scanParamLoop s inD (depth + 1) (parens + 1) := by
  conv_lhs => rw [scanParamLoop]
  simp [h]

theorem scanParamLoop_done {s : List Tok} {depth : Nat} (inD : Nat)
    (h : tokenPeek s depth = Tok.rparen) :
    scanParamLoop s inD depth 1 = depth + 1 := by
  conv_lhs => rw [scanParamLoop]
  simp [h]

theorem scanParamLoop_close {s : List Tok} {depth parens : Nat} (inD : Nat)
    (hp : parens ≠ 1) (h : tokenPeek s depth = Tok.rparen) :
    scanParamLoop s inD depth parens = scanParamLoop s inD (depth + 1) (parens - 1) := by
  conv_lhs => rw [scanParamLoop]
  simp [h, hp]

theorem scanParamLoop_other {s : List Tok} {depth parens : Nat} (inD : Nat)
    (h0 : tokenPeek s depth ≠ Tok.eof) (h1 : tokenPeek s depth ≠ Tok.lparen)
    (h2 : tokenPeek s depth ≠ Tok.rparen) :
    scanParamLoop s inD depth parens = scanParamLoop s inD (depth + 1) parens := by
  conv_lhs => rw [scanParamLoop]
  simp [h0, h1, h2]

theorem scanTypeEqLoop_eof {s : List Tok} {depth parens : Nat}
    (h : tokenPeek s depth = Tok.eof) :
    scanTypeEqLoop s depth parens = depth := by
  conv_lhs => rw [scanTypeEqLoop]
  simp [h]

theorem scanTypeEqLoop_open {s : List Tok} {depth parens : Nat}
    (h : tokenPeek s depth = Tok.lparen) :
    scanTypeEqLoop s depth parens = scanTypeEqLoop s (depth + 1) (parens + 1) := by
  conv_lhs => rw [scanTypeEqLoop]
  simp [h]

theorem scanTypeEqLoop_done {s : List Tok} {depth : Nat}
    (h : tokenPeek s depth = Tok.rparen) :
    scanTypeEqLoop s depth 1 = depth + 1 := by
  conv_lhs => rw [scanTypeEqLoop]
  simp [h]

theorem scanTypeEqLoop_close {s : List Tok} {depth parens : Nat}
    (hp : parens ≠ 1) (h : tokenPeek s depth = Tok.rparen) :
    scanTypeEqLoop s depth parens = scanTypeEqLoop s (depth + 1) (parens - 1) := by
  conv_lhs => rw [scanTypeEqLoop]
  simp [h, hp]

theorem scanTypeEqLoop_other {s : List Tok} {depth parens : Nat}
    (h0 : tokenPeek s depth ≠ Tok.eof) (h1 : tokenPeek s depth ≠ Tok.lparen)
    (h2 : tokenPeek s depth ≠ Tok.rparen) :
    scanTypeEqLoop s depth parens = scanTypeEqLoop s (depth + 1) parens := by
  conv_lhs => rw [scanTypeEqLoop]
  simp [h0, h1, h2]

/-! Characterizations of the possible return values of the loops: each
run of a loop either reports a miss, or stops just past a recognized
structure. -/

/-- The bracket loop either returns the original input position (end of
input inside an unclosed group), or a position at or beyond the current
one whose token does not start another bracket group. -/
theorem scanBracketLoop_cases (s : List Tok) (inD depth bra : Nat) :
    inD ≤ depth →
      scanBracketLoop s inD depth bra = inD ∨
        (depth ≤ scanBracketLoop s inD depth bra ∧
          tokenPeek s (scanBracketLoop s inD depth bra) ≠ Tok.lbrack) := by
  induction depth, bra using scanBracketLoop.induct s inD with
  | case1 depth h ih =>
    intro hle
    rw [scanBracketLoop_outer_enter inD h]
    rcases ih (by omega) with h1 | ⟨h1, h2⟩
    · exact Or.inl h1
    · exact Or.inr ⟨by omega, h2⟩
  | case2 depth h =>
    intro hle
    rw [scanBracketLoop_outer_stop inD h]
    exact Or.inr ⟨le_refl _, h⟩
  | case3 depth bra hb h =>
    intro _
    rw [scanBracketLoop_eof inD hb h]
    exact Or.inl rfl
  | case4 depth bra hb h0 h ih =>
    intro hle
    rw [scanBracketLoop_open inD hb h]
    rcases ih (by omega) with h1 | ⟨h1, h2⟩
    · exact Or.inl h1
    · exact Or.inr ⟨by omega, h2⟩
  | case5 depth bra hb h0 h1 h ih =>
    intro hle
    rw [scanBracketLoop_close inD hb h]
    rcases ih (by omega) with hx | ⟨hx, hy⟩
    · exact Or.inl hx
    · exact Or.inr ⟨by omega, hy⟩
  | case6 depth bra hb h0 h1 h2 ih =>
    intro hle
    rw [scanBracketLoop_other inD hb h0 h1 h2]
    rcases ih (by omega) with hx | ⟨hx, hy⟩
    · exact Or.inl hx
    · exact Or.inr ⟨by omega, hy⟩

/-- The parenthesis loop of the parameter-group scanner either returns
the original input position (end of input inside the group), or a
position strictly beyond the current one placed just after a closing
parenthesis. -/
theorem scanParamLoop_cases (s : List Tok) (inD depth parens : Nat) :
    inD < depth →
      scanParamLoop s inD depth parens = inD ∨
        (depth < scanParamLoop s inD depth parens ∧
          tokenPeek s (scanParamLoop s inD depth parens - 1) = Tok.rparen) := by
  induction depth, parens using scanParamLoop.induct s inD with
  | case1 depth parens h =>
    intro _
    rw [scanParamLoop_eof inD h]
    exact Or.inl rfl
  | case2 depth parens h0 h ih =>
    intro hlt
    rw [scanParamLoop_open inD h]
    rcases ih (by omega) with hx | ⟨hx, hy⟩
    · exact Or.inl hx
    · exact Or.inr ⟨by omega, hy⟩
  | case3 depth h0 h1 h =>
    intro hlt
    rw [scanParamLoop_done inD h]
    exact Or.inr ⟨by omega, by simpa using h⟩
  | case4 depth parens h0 h1 h hp ih =>
    intro hlt
    rw [scanParamLoop_close inD hp h]
    rcases ih (by omega) with hx | ⟨hx, hy⟩
    · exact Or.inl hx
    · exact Or.inr ⟨by omega, hy⟩
  | case5 depth parens h0 h1 h2 ih =>
    intro hlt
    rw [scanParamLoop_other inD h0 h1 h2]
    rcases ih (by omega) with hx | ⟨hx, hy⟩
    · exact Or.inl hx
    · exact Or.inr ⟨by omega, hy⟩

/-- The parenthesis loop of the type-reference scanner never returns the
input position on end of input: it stops either just past a closing
parenthesis, or exactly at the position holding the end-of-input
sentinel. -/
theorem scanTypeEqLoop_cases (s : List Tok) (depth parens : Nat) :
    depth ≤ scanTypeEqLoop s depth parens ∧
      (tokenPeek s (scanTypeEqLoop s depth parens - 1) = Tok.rparen ∨
        tokenPeek s (scanTypeEqLoop s depth parens) = Tok.eof) := by
  induction depth, parens using scanTypeEqLoop.induct s with
  | case1 depth parens h =>
    rw [scanTypeEqLoop_eof h]
    exact ⟨le_refl _, Or.inr h⟩
  | case2 depth parens h0 h ih =>
    rw [scanTypeEqLoop_open h]
    exact ⟨by omega, ih.2⟩
  | case3 depth h0 h1 h =>
    rw [scanTypeEqLoop_done h]
    exact ⟨by omega, Or.inl (by simpa using h)⟩
  | case4 depth parens h0 h1 h hp ih =>
    rw [scanTypeEqLoop_close hp h]
    exact ⟨by omega, ih.2⟩
  | case5 depth parens h0 h1 h2 ih =>
    rw [scanTypeEqLoop_other h0 h1 h2]
    exact ⟨by omega, ih.2⟩

/-- The bracket scanner never moves backward. -/
theorem tokenPipeScanBracket_ge (s : List Tok) (d : Nat) :
    d ≤ tokenPipeScanBracket s d := by
  unfold tokenPipeScanBracket
  rcases scanBracketLoop_cases s d d 0 (le_refl d) with h | ⟨h, _⟩
  · omega
  · exact h

/-- The parameter-group scanner never moves backward. -/
theorem tokenPipeScanParam_ge (s : List Tok) (d : Nat) (forCell : Bool) :
    d ≤ tokenPipeScanParam s d forCell := by
  unfold tokenPipeScanParam
  dsimp only
  split_ifs with h1 h2 h3 h4
  · exact le_refl d
  · exact le_refl d
  · omega
  · exact le_refl d
  · rcases scanParamLoop_cases s d (d + 2) 1 (by omega) with h | ⟨h, _⟩
    · omega
    · omega

/-- The cell-instantiation scan from position 0 returns a nonzero
position exactly when the cell shape holds: an optional parameter group,
then a raw identifier, then optional bracket groups, then `'('`. -/
theorem tokenPipeScanIdCell_ne_zero_iff (s : List Tok) :
    tokenPipeScanIdCell s 0 ≠ 0 ↔
      (tokenPeek s (tokenPipeScanParam s 0 true) = Tok.yaID__LEX ∧
        tokenPeek s (tokenPipeScanBracket s (tokenPipeScanParam s 0 true + 1))
          = Tok.lparen) := by
  unfold tokenPipeScanIdCell
  constructor
  · intro h
    by_cases h1 : tokenPeek s (tokenPipeScanParam s 0 true) = Tok.yaID__LEX
    · by_cases h2 : tokenPeek s
          (tokenPipeScanBracket s (tokenPipeScanParam s 0 true + 1)) = Tok.lparen
      · exact ⟨h1, h2⟩
      · simp [h1, h2] at h
    · simp [h1] at h
  · intro ⟨h1, h2⟩
    simp only [h1, h2]
    have := tokenPipeScanBracket_ge s (tokenPipeScanParam s 0 true + 1)
    simp only [ne_eq, not_true_eq_false, if_false, ite_false]
    omega

/-- `V3ParseImp::tokenPipelineId` (source lines 508-525): reclassifies a
raw identifier token (`yaID__LEX`).  `s` is the pending stream after the
identifier; `lastBison` is `m_tokenLastBison.token`, the previously
finalized token.  The trailing `return token` of the source returns the
unchanged input kind `yaID__LEX`. -/
def tokenPipelineId (s : List Tok) (lastBison : Tok) : Tok :=
  let nexttok := tokenPeek s 0
  if nexttok = Tok.yP_COLONCOLON then Tok.yaID__CC
  else if (lastBison ≠ Tok.atSign ∧ lastBison ≠ Tok.hash ∧ lastBison ≠ Tok.dot)
      ∧ tokenPipeScanIdCell s 0 ≠ 0 then Tok.yaID__aCELL
  else if nexttok = Tok.hash then
    if tokenPeek s (tokenPipeScanParam s 0 false) = Tok.yP_COLONCOLON then Tok.yaID__CC
    else Tok.yaID__LEX
  else Tok.yaID__LEX

/-- `V3ParseImp::isStrengthToken` (source lines 640-644). -/
def isStrengthToken (tok : Tok) : Bool :=
  tok = Tok.ygenSTRENGTH ∨ tok = Tok.ySUPPLY0 ∨ tok = Tok.ySUPPLY1 ∨ tok = Tok.ySTRONG0
    ∨ tok = Tok.ySTRONG1 ∨ tok = Tok.yPULL0 ∨ tok = Tok.yPULL1 ∨ tok = Tok.yWEAK0
    ∨ tok = Tok.yWEAK1 ∨ tok = Tok.yHIGHZ0 ∨ tok = Tok.yHIGHZ1

/-- The token value `yylval` as far as the pipeline observes it: the
token kind and the string payload `strp`. -/
structure YYS where
  token : Tok
  strp : String
deriving DecidableEq, Repr

/-- `V3ParseImp::tokenPipeline` (source lines 527-638), the purely
syntactic reclassification applied to the token just popped from the
lookahead queue.  `cur` is the popped `yylval`; `s` is the remaining
pending stream (what `tokenPeekp` sees); `lastBison` is the previously
finalized token; `pedantic` is `v3Global.opt.pedantic()`.  The
`yGLOBAL__LEX` demotion stores the literal string "global" in the
payload, mirroring `yylval.strp = newString("global")`. -/
def tokenPipeline (cur : YYS) (s : List Tok) (lastBison : Tok) (pedantic : Bool) : YYS :=
  let token := cur.token
  if token = Tok.lparen ∨ token = Tok.colon ∨ token = Tok.yCONST__LEX
      ∨ token = Tok.yGLOBAL__LEX ∨ token = Tok.yLOCAL__LEX ∨ token = Tok.yNEW__LEX
      ∨ token = Tok.ySTATIC__LEX ∨ token = Tok.yTYPE__LEX ∨ token = Tok.yVIRTUAL__LEX
      ∨ token = Tok.yWITH__LEX ∨ token = Tok.yaID__LEX then
    let nexttok := tokenPeek s 0
    if token = Tok.lparen ∧ isStrengthToken nexttok then
      { cur with token := Tok.yP_PAR__STRENGTH }
    else if token = Tok.colon then
      if nexttok = Tok.yBEGIN then { cur with token := Tok.yP_COLON__BEGIN }
      else if nexttok = Tok.yFORK then { cur with token := Tok.yP_COLON__FORK }
      else cur
    else if token = Tok.yCONST__LEX then
      if nexttok = Tok.yREF then { cur with token := Tok.yCONST__REF }
      else { cur with token := Tok.yCONST__ETC }
    else if token = Tok.yGLOBAL__LEX then
      if nexttok = Tok.yCLOCKING then { cur with token := Tok.yGLOBAL__CLOCKING }
      else if pedantic then { cur with token := Tok.yGLOBAL__ETC }
      else { token := Tok.yaID__LEX, strp := "global" }
    else if token = Tok.yLOCAL__LEX then
      if nexttok = Tok.yP_COLONCOLON then { cur with token := Tok.yLOCAL__COLONCOLON }
      else { cur with token := Tok.yLOCAL__ETC }
    else if token = Tok.yNEW__LEX then
      if nexttok = Tok.lparen then { cur with token := Tok.yNEW__PAREN }
      else { cur with token := Tok.yNEW__ETC }
    else if token = Tok.ySTATIC__LEX then
      if nexttok = Tok.yCONSTRAINT then { cur with token := Tok.ySTATIC__CONSTRAINT }
      else { cur with token := Tok.ySTATIC__ETC }
    else if token = Tok.yTYPE__LEX then
      let depth := tokenPipeScanTypeEq s 0
      let postToken := tokenPeek s depth
      if postToken = Tok.yP_EQUAL ∨ postToken = Tok.yP_NOTEQUAL
          ∨ postToken = Tok.yP_CASEEQUAL ∨ postToken = Tok.yP_CASENOTEQUAL then
        { cur with token := Tok.yTYPE__EQ }
      else { cur with token := Tok.yTYPE__ETC }
    else if token = Tok.yVIRTUAL__LEX then
      if nexttok = Tok.yCLASS then { cur with token := Tok.yVIRTUAL__CLASS }
      else if nexttok = Tok.yINTERFACE then { cur with token := Tok.yVIRTUAL__INTERFACE }
      else if nexttok = Tok.yaID__ETC ∨ nexttok = Tok.yaID__LEX then
        { cur with token := Tok.yVIRTUAL__anyID }
      else { cur with token := Tok.yVIRTUAL__ETC }
    else if token = Tok.yWITH__LEX then
      if nexttok = Tok.lparen then { cur with token := Tok.yWITH__PAREN }
      else if nexttok = Tok.lbrack then { cur with token := Tok.yWITH__BRA }
      else if nexttok = Tok.lcurly then { cur with token := Tok.yWITH__CUR }
      else { cur with token := Tok.yWITH__ETC }
    else if token = Tok.yaID__LEX then
      { cur with token := tokenPipelineId s lastBison }
    else cur
  else cur

/-! Symbol-aware classification (`V3ParseImp::tokenPipelineSym`, source
lines 646-722).  The symbol table is an external collaborator; a
`SymOracle` records, for one token, the outcomes the collaborator would
return for each lookup the code can perform. -/

/-- Kind of the AST node a symbol lookup resolved to, as discriminated
by the `VN_IS` tests of `tokenPipelineSym`. -/
inductive NodeKind where
  | Typedef
  | TypedefFwd
  | Class
  | Package
  | OtherNode
deriving DecidableEq, Repr

/-- Per-token outcomes of the symbol-table collaborator:
`nextIdActive` is whether `symp()->nextId()` is set (pending scoped
root); `flatResult` is what `findIdFlat` under that root would return;
`fallbackResult` is what `findIdFallback` from the current scope would
return; `stdPkgExists` is whether `v3Global.rootp()->stdPackagep()` is
non-null; `stdResult` is what `findIdFallback` in the std package would
return. -/
structure SymOracle where
  nextIdActive : Bool
  flatResult : Option NodeKind
  fallbackResult : Option NodeKind
  stdPkgExists : Bool
  stdResult : Option NodeKind
deriving DecidableEq, Repr

/-- Session state read and written by `tokenPipelineSym`:
`m_afterColonColon`, `v3Global.usesStdPackage()`, the function-local
`static int warned` of the package-not-found diagnostic, plus counters
for the observable side effects (implicit-import splices and PKGNODECL
diagnostics emitted). -/
structure SymState where
  afterColonColon : Bool
  usesStdPackage : Bool
  pkgWarned : Nat
  spliceCount : Nat
  diagCount : Nat
deriving DecidableEq, Repr

/-- State at the start of a run. -/
def initSymState : SymState :=
  { afterColonColon := false, usesStdPackage := false, pkgWarned := 0,
    spliceCount := 0, diagCount := 0 }

/-- Options fixed for a whole run: `v3Global.opt.bboxUnsup()`. -/
structure SymCfg where
  bboxUnsup : Bool
deriving DecidableEq, Repr

/-- Result of one `tokenPipelineSym` step: the finalized token kind, the
new session state, whether the flat lookup in the std package was
performed (`stdsymp->findIdFallback` reached), whether the token
resolved via that fallback, and the final lookup outcome `foundp`. -/
structure SymStepResult where
  token : Tok
  state : SymState
  stdLookupDone : Bool
  stdFallbackFound : Bool
  found : Option NodeKind
deriving DecidableEq, Repr

/-- The portion of `V3ParseImp::tokenPipelineSym` after the call to
`tokenPipeline()` (source lines 650-721): symbol-table-assisted
reclassification of identifier-class tokens, the std-package fallback
with its one-time implicit wildcard-import splice, the once-per-run
package-not-found diagnostic, and the tracking of `m_afterColonColon`.
`tok` is the token produced by `tokenPipeline`; `idStr` is
`*(yylval.strp)`. -/
def tokenPipelineSymStep (cfg : SymCfg) (st : SymState) (tok : Tok) (idStr : String)
    (o : SymOracle) : SymStepResult :=
  if tok = Tok.yaID__LEX ∨ tok = Tok.yaID__CC then
    let found0 : Option NodeKind := if o.nextIdActive then o.flatResult else o.fallbackResult
    let tryStd : Bool := found0.isNone && !st.afterColonColon
    let stdDone : Bool := tryStd && o.stdPkgExists
    let found1 : Option NodeKind := if stdDone then o.stdResult else found0
    let fb : Bool := tryStd && found1.isSome
    let splice : Bool := fb && !st.usesStdPackage
    let st1 := if splice then
        { st with spliceCount := st.spliceCount + 1, usesStdPackage := true }
      else st
    let tokenSt : Tok × SymState :=
      match found1 with
      | some k =>
        let token2 := if tok = Tok.yaID__LEX then
            (match k with
              | NodeKind.Typedef => Tok.yaID__aTYPE
              | NodeKind.TypedefFwd => Tok.yaID__aTYPE
              | NodeKind.Class => Tok.yaID__aTYPE
              | NodeKind.Package => Tok.yaID__ETC
              | NodeKind.OtherNode => Tok.yaID__ETC)
          else tok
        let st2 := if tok ≠ Tok.yaID__LEX ∧ st.afterColonColon = false ∧ idStr = "std" then
            { st1 with usesStdPackage := true }
          else st1
        (token2, st2)
      | none =>
        if tok = Tok.yaID__CC then
          if cfg.bboxUnsup then (tok, st1)
          else
            let st2 := if st1.pkgWarned = 0 then
                { st1 with diagCount := st1.diagCount + 1, pkgWarned := st1.pkgWarned + 1 }
              else { st1 with pkgWarned := st1.pkgWarned + 1 }
            (tok, st2)
        else (Tok.yaID__ETC, st1)
    { token := tokenSt.1, state := { tokenSt.2 with afterColonColon := false },
      stdLookupDone := stdDone, stdFallbackFound := fb, found := found1 }
  else
    { token := tok, state := { st with afterColonColon := tok = Tok.yP_COLONCOLON },
      stdLookupDone := false, stdFallbackFound := false, found := none }

/-- One finalized-token event of a run: the token handed over by
`tokenPipeline`, its string payload, and the symbol-table outcomes for
it. -/
structure SymEvent where
  tok : Tok
  idStr : String
  oracle : SymOracle
deriving DecidableEq, Repr

/-- A whole run: fold `tokenPipelineSymStep` over a sequence of
finalized-token events. -/
def symRun (cfg : SymCfg) (st : SymState) : List SymEvent → SymState
  | [] => st
  | e :: rest =>
      symRun cfg (tokenPipelineSymStep cfg st e.tok e.idStr e.oracle).state rest

/-! Source-location stack (`V3ParseImp::lexPpline`, source lines
73-100).  The `FileLine` class itself is not part of the shown source;
its data is modelled from the spec. -/

/-- Modelled from the spec: the data of one `FileLine` node
(SourceLocation, spec section 3) — filename, line number, running
content-line counter, warning-suppression state, and a parent
back-reference.  The warning-suppression state content is opaque to the
claims and is carried as a list of strings; the parent is an index into
a node heap, so that fresh copies versus aliased nodes are
distinguishable. -/
structure FLData where
  filename : String
  lineno : Int
  contentLineno : Nat
  warns : List String
  parent : Option Nat
deriving DecidableEq, Repr

/-- Heap of `FileLine` nodes plus the id of the current top
(`m_lexFileline`).  Allocation (`new FileLine`) appends a node at index
`size`; existing nodes are never destroyed while referenced, matching
the source's copy-then-replace discipline. -/
structure FLState where
  heap : Nat → FLData
  size : Nat
  top : Nat

/-- Read a node from the heap. -/
def getFl (s : FLState) (i : Nat) : FLData := s.heap i

/-- Allocate a fresh node (`new FileLine`); returns the new state and
the new node's id. -/
def flAlloc (s : FLState) (d : FLData) : FLState × Nat :=
  ({ s with heap := fun i => if i = s.size then d else s.heap i, size := s.size + 1 },
    s.size)

/-- The `enterExit == 1` branch of `lexPpline`: snapshot the current top
(`copyOrSameFileLine`, modelled from the spec as a raw copy without
re-applying pending suppressions), allocate a new top as a copy of that
snapshot (`new FileLine{prevFl}`), and set the new top's parent to the
snapshot. -/
def lexPplineEnter (s : FLState) : FLState :=
  let cur := getFl s s.top
  let p := flAlloc s cur
  let q := flAlloc p.1 { cur with parent := some p.2 }
  { q.1 with top := q.2 }

/-- The `enterExit == 2` branch of `lexPpline`: if the current top has a
parent, replace the top with a fresh copy of the parent (`new
FileLine{upFl}`) and carry the content-line counter forward from the
exited node (`contentLinenoFrom`, modelled from the spec); with no
parent, do nothing.  This is the spec's `onDirectiveExit()` operation. -/
def lexPplineExit (s : FLState) : FLState :=
  let cur := getFl s s.top
  match cur.parent with
  | none => s
  | some up =>
    let q := flAlloc s { getFl s up with contentLineno := cur.contentLineno }
    { q.1 with top := q.2 }

/-- The trailing `enterExit != -1` portion of `lexPpline`: mutate only
the current top's filename and line number, then re-apply pending
warning-ignore ranges (`applyIgnores`, modelled from the spec as an
arbitrary function `applyIg` of the new position acting on the
suppression state only).  This is the spec's `onLineOrFilenameChange`. -/
def lexLineChange (applyIg : String → Int → List String → List String)
    (name : String) (line : Int) (s : FLState) : FLState :=
  let cur := getFl s s.top
  { s with heap := fun i => if i = s.top then
      { cur with filename := name, lineno := line, warns := applyIg name line cur.warns }
    else s.heap i }

/-- `V3ParseImp::lexPpline`: dispatch on the parsed enter/exit flag,
then (for any flag other than -1) apply the line/filename change. -/
def lexPpline (applyIg : String → Int → List String → List String)
    (name : String) (line : Int) (enterExit : Int) (s : FLState) : FLState :=
  let s1 := if enterExit = 1 then lexPplineEnter s
    else if enterExit = 2 then lexPplineExit s
    else s
  if enterExit ≠ -1 then lexLineChange applyIg name line s1 else s1

/-- The spec's `onDirectiveEnter(newFile)`: a flag-1 line directive,
which enters a nested region and then applies the directive's
filename/line to the new top. -/
def onDirectiveEnter (applyIg : String → Int → List String → List String)
    (name : String) (line : Int) (s : FLState) : FLState :=
  lexPpline applyIg name line 1 s

/-- The spec's `onDirectiveExit()`: the `enterExit == 2` branch of
`lexPpline` (the stack restoration; the directive's own
filename/line change is `onLineOrFilenameChange`, kept separate as in
the spec's operation signatures). -/
def onDirectiveExit (s : FLState) : FLState := lexPplineExit s

/-- Modelled from the spec: the lexer advancing the running content-line
counter of the current top while scanning content, between directive
events. -/
def flBumpContent (k : Nat) (s : FLState) : FLState :=
  let cur := getFl s s.top
  { s with heap := fun i => if i = s.top then
      { cur with contentLineno := cur.contentLineno + k }
    else s.heap i }

/-- Concrete root node used by the C6 witness. -/
def flNodeRoot : FLData :=
  { filename := "top.v", lineno := 3, contentLineno := 4, warns := [], parent := none }

/-- Concrete included-file node used by the C6 witness. -/
def flNodeInc : FLData :=
  { filename := "inc.v", lineno := 1, contentLineno := 9, warns := [], parent := some 0 }

/-- Concrete two-node state used by the C6 witness: the top (node 1) has
node 0 as parent. -/
def flStateTwo : FLState :=
  { heap := (fun i => if i = 0 then flNodeRoot else flNodeInc), size := 2, top := 1 }

/-- Concrete single-node state used by the C6 witness: the top has no
parent. -/
def flStateOne : FLState :=
  { heap := (fun _ => flNodeRoot), size := 1, top := 0 }

/-! Lint save/restore (`V3ParseImp::lexVerilatorCmtLintSave` /
`lexVerilatorCmtLintRestore`, source lines 142-151). -/

/-- State for the lint save/restore pair: the current top location's
warning-suppression state (`warnStateFrom` is modelled from the spec as
copying this component), the saved-snapshot stack `m_lexLintState`
(head of the list models the vector's back), and a counter of
"without matching save" diagnostics. -/
structure LintModel where
  cur : List String
  stack : List (List String)
  errCount : Nat
deriving DecidableEq, Repr

/-- `V3ParseImp::lexVerilatorCmtLintSave`: push a snapshot of the
current location (its suppression state) onto `m_lexLintState`. -/
def lexVerilatorCmtLintSave (m : LintModel) : LintModel :=
  { m with stack := m.cur :: m.stack }

/-- `V3ParseImp::lexVerilatorCmtLintRestore`: with an empty stack, emit
the "without matching save" diagnostic and return; otherwise copy the
saved suppression state into the current location and pop. -/
def lexVerilatorCmtLintRestore (m : LintModel) : LintModel :=
  match m.stack with
  | [] => { m with errCount := m.errCount + 1 }
  | w :: rest => { m with cur := w, stack := rest }

/-! Preprocessor buffer drain (`V3ParseImp::ppInputToLex`, source lines
244-266).  C++ strings are byte sequences, modelled as `List Char`;
`m_ppBuffers` is a list of them. -/

/-- The while loop of `ppInputToLex`: `got` bytes already copied,
`maxSize` the lexer's capacity.  A front string longer than the
remaining capacity is split, the undelivered remainder re-queued at the
front (`push_front`), at which point the call is full and returns. -/
def ppInputToLexLoop (maxSize got : Nat) : List (List Char) → List Char × List (List Char)
  | [] => ([], [])
  | front :: rest =>
    if got < maxSize then
      if front.length > maxSize - got then
        (front.take (maxSize - got), front.drop (maxSize - got) :: rest)
      else
        let r := ppInputToLexLoop maxSize (got + front.length) rest
        (front ++ r.1, r.2)
    else ([], front :: rest)

/-- `V3ParseImp::ppInputToLex`: drain up to `maxSize` bytes from the
buffered preprocessor output into the lexer; returns the delivered bytes
(whose length is the returned `got`) and the remaining buffer list. -/
def ppInputToLex (bufs : List (List Char)) (maxSize : Nat) : List Char × List (List Char) :=
  ppInputToLexLoop maxSize 0 bufs

/-- A sequence of `ppInputToLex` calls with the given capacities:
returns all bytes delivered, in order, and the final buffer list. -/
def ppRun : List Nat → List (List Char) → List Char × List (List Char)
  | [], bufs => ([], bufs)
  | m :: ms, bufs =>
    let r := ppInputToLex bufs m
    let rec2 := ppRun ms r.2
    (r.1 ++ rec2.1, rec2.2)

/-! Helper lemmas about one `tokenPipelineSym` step and about whole
runs. -/

/-- Characterization of the splice side effect of one step: either the
splice count is unchanged (and a set used-flag stays set), or it grows
by one, in which case the used-flag was clear before and is set after. -/
theorem symStep_splice_char (cfg : SymCfg) (st : SymState) (tok : Tok) (v : String)
    (o : SymOracle) :
    ((tokenPipelineSymStep cfg st tok v o).state.spliceCount = st.spliceCount ∧
      (st.usesStdPackage = true →
        (tokenPipelineSymStep cfg st tok v o).state.usesStdPackage = true)) ∨
    ((tokenPipelineSymStep cfg st tok v o).state.spliceCount = st.spliceCount + 1 ∧
      st.usesStdPackage = false ∧
      (tokenPipelineSymStep cfg st tok v o).state.usesStdPackage = true) := by
  by_cases hid : tok = Tok.yaID__LEX ∨ tok = Tok.yaID__CC
  · cases hf0 : (if o.nextIdActive then o.flatResult else o.fallbackResult) with
    | none =>
      cases hacc : st.afterColonColon <;> cases hpkg : o.stdPkgExists <;>
        cases hstd : o.stdResult <;> cases huse : st.usesStdPackage <;>
          simp [tokenPipelineSymStep, hid, hf0, hacc, hpkg, hstd, huse] <;>
            split_ifs <;> simp_all
    | some k =>
      cases huse : st.usesStdPackage <;>
        simp [tokenPipelineSymStep, hid, hf0, huse] <;> split_ifs <;> simp_all
  · simp [tokenPipelineSymStep, hid]

/-- Positive direction of the splice behaviour: a step whose token does
resolve via the std-package fallback, taken when the
used-standard-package flag is still clear, performs the splice — the
splice count grows by one and the flag is set. -/
theorem symStep_splice_pos (cfg : SymCfg) (st : SymState) (tok : Tok) (v : String)
    (o : SymOracle) :
    (tokenPipelineSymStep cfg st tok v o).stdFallbackFound = true →
      st.usesStdPackage = false →
      (tokenPipelineSymStep cfg st tok v o).state.spliceCount = st.spliceCount + 1 ∧
      (tokenPipelineSymStep cfg st tok v o).state.usesStdPackage = true := by
  by_cases hid : tok = Tok.yaID__LEX ∨ tok = Tok.yaID__CC
  · cases hf0 : (if o.nextIdActive then o.flatResult else o.fallbackResult) with
    | none =>
      cases hacc : st.afterColonColon <;> cases hpkg : o.stdPkgExists <;>
        cases hstd : o.stdResult <;> cases huse : st.usesStdPackage <;>
          simp [tokenPipelineSymStep, hid, hf0, hacc, hpkg, hstd, huse] <;>
            split_ifs <;> simp_all
    | some k =>
      cases huse : st.usesStdPackage <;>
        simp [tokenPipelineSymStep, hid, hf0, huse] <;> split_ifs <;> simp_all
  · simp [tokenPipelineSymStep, hid]

/-- Characterization of the diagnostic side effect of one step: either
the diagnostic count and the warned counter are unchanged, or (only with
the black-box option off) the warned counter grows by one and the
diagnostic count grows exactly when the warned counter was zero. -/
theorem symStep_diag_char (cfg : SymCfg) (st : SymState) (tok : Tok) (v : String)
    (o : SymOracle) :
    ((tokenPipelineSymStep cfg st tok v o).state.diagCount = st.diagCount ∧
      (tokenPipelineSymStep cfg st tok v o).state.pkgWarned = st.pkgWarned) ∨
    (cfg.bboxUnsup = false ∧
      (tokenPipelineSymStep cfg st tok v o).state.pkgWarned = st.pkgWarned + 1 ∧
      ((st.pkgWarned = 0 ∧
          (tokenPipelineSymStep cfg st tok v o).state.diagCount = st.diagCount + 1) ∨
        (st.pkgWarned ≠ 0 ∧
          (tokenPipelineSymStep cfg st tok v o).state.diagCount = st.diagCount))) := by
  by_cases hid : tok = Tok.yaID__LEX ∨ tok = Tok.yaID__CC
  · cases hf0 : (if o.nextIdActive then o.flatResult else o.fallbackResult) with
    | none =>
      cases hacc : st.afterColonColon <;> cases hpkg : o.stdPkgExists <;>
        cases hstd : o.stdResult <;> cases hbb : cfg.bboxUnsup <;>
          by_cases hw : st.pkgWarned = 0 <;>
            simp [tokenPipelineSymStep, hid, hf0, hacc, hpkg, hstd, hbb, hw] <;>
              split_ifs <;> simp_all
    | some k =>
      simp [tokenPipelineSymStep, hid, hf0] <;> split_ifs <;> simp_all
  · simp [tokenPipelineSymStep, hid]

/-- The splice-count invariant is preserved along any run: the splice
count never exceeds one, and is zero while the used-flag is clear. -/
theorem symRun_splice_inv (cfg : SymCfg) :
    ∀ (evs : List SymEvent) (st : SymState),
      st.spliceCount ≤ (if st.usesStdPackage = true then 1 else 0) →
        (symRun cfg st evs).spliceCount ≤
          (if (symRun cfg st evs).usesStdPackage = true then 1 else 0) := by
  intro evs
  induction evs with
  | nil => intro st h; exact h
  | cons e rest ih =>
    intro st h
    apply ih
    rcases symStep_splice_char cfg st e.tok e.idStr e.oracle with ⟨h1, h2⟩ | ⟨h1, h2, h3⟩
    · rcases huse : st.usesStdPackage with _ | _
      · simp only [huse, if_neg] at h
        rcases h4 : (tokenPipelineSymStep cfg st e.tok e.idStr e.oracle).state.usesStdPackage
          <;> simp_all <;> omega
      · have := h2 huse
        simp_all
    · rcases huse : st.usesStdPackage with _ | _
      · simp_all
      · simp_all

/-- With the black-box option enabled, no step ever changes the
diagnostic count. -/
theorem symRun_bbox_diag (cfg : SymCfg) (hbb : cfg.bboxUnsup = true) :
    ∀ (evs : List SymEvent) (st : SymState),
      (symRun cfg st evs).diagCount = st.diagCount := by
  intro evs
  induction evs with
  | nil => intro st; rfl
  | cons e rest ih =>
    intro st
    rcases symStep_diag_char cfg st e.tok e.idStr e.oracle with ⟨h1, _⟩ | ⟨h1, _⟩
    · rw [symRun, ih, h1]
    · rw [hbb] at h1; exact absurd h1 (by simp)

/-- The diagnostic count always equals `min pkgWarned 1` along a run. -/
theorem symRun_diag_inv (cfg : SymCfg) :
    ∀ (evs : List SymEvent) (st : SymState),
      st.diagCount = min st.pkgWarned 1 →
        (symRun cfg st evs).diagCount = min (symRun cfg st evs).pkgWarned 1 := by
  intro evs
  induction evs with
  | nil => intro st h; exact h
  | cons e rest ih =>
    intro st h
    apply ih
    rcases symStep_diag_char cfg st e.tok e.idStr e.oracle with ⟨h1, h2⟩ |
      ⟨_, h1, ⟨h2, h3⟩ | ⟨h2, h3⟩⟩
    · omega
    · omega
    · omega

/-! Claim C2. -/

/-- C2 (corrected).  The flat lookup in the std package is performed
exactly when the token is identifier-class, the ordinary lookup (forced
flat lookup under a pending scoped root, or outward fallback) found
nothing, the previous finalized token was not `::` (the
`m_afterColonColon` flag is clear), and the std package exists — the
gate is the after-`::` position flag, not the colon-colon-qualified
token kind. -/
theorem claim2_theorem (cfg : SymCfg) (st : SymState) (tok : Tok) (v : String)
    (o : SymOracle) :
    (tokenPipelineSymStep cfg st tok v o).stdLookupDone = true ↔
      ((tok = Tok.yaID__LEX ∨ tok = Tok.yaID__CC) ∧
        (if o.nextIdActive then o.flatResult else o.fallbackResult) = none ∧
        st.afterColonColon = false ∧ o.stdPkgExists = true) := by
  by_cases hid : tok = Tok.yaID__LEX ∨ tok = Tok.yaID__CC
  · simp only [tokenPipelineSymStep, if_pos hid]
    cases hf : (if o.nextIdActive then o.flatResult else o.fallbackResult) with
    | none => simp [hf, hid, Option.isNone]
    | some k => simp [hf, hid]
  · simp [tokenPipelineSymStep, hid]

/-- C2 counterexample.  A colon-colon-qualified identifier token
(`yaID__CC`) whose ordinary lookup fails, arriving when the previous
finalized token was not `::`, does receive the std-package fallback
lookup — contradicting the claim that a colon-colon-qualified identifier
never receives it. -/
theorem claim2_counterexample :
    (tokenPipelineSymStep { bboxUnsup := false } initSymState Tok.yaID__CC "P"
        { nextIdActive := false, flatResult := none, fallbackResult := none,
          stdPkgExists := true, stdResult := some NodeKind.Package }).stdLookupDone
      = true := by
  rfl

/-! Claim C3. -/

/-- C3 (corrected).  Over any whole run from the initial state the
implicit wildcard import is spliced at most once; a step never splices
when the used-standard-package flag is already set; a step that does
splice finds the flag clear and leaves it set; and, conversely, a step
whose token resolves via the std-package fallback while the flag is
still clear does perform the splice and sets the flag — so a
fallback-resolved identifier splices exactly when the flag is not
already set. -/
theorem claim3_theorem (cfg : SymCfg) :
    (∀ evs : List SymEvent, (symRun cfg initSymState evs).spliceCount ≤ 1) ∧
    (∀ (st : SymState) (tok : Tok) (v : String) (o : SymOracle),
      st.usesStdPackage = true →
        (tokenPipelineSymStep cfg st tok v o).state.spliceCount = st.spliceCount) ∧
    (∀ (st : SymState) (tok : Tok) (v : String) (o : SymOracle),
      (tokenPipelineSymStep cfg st tok v o).state.spliceCount = st.spliceCount + 1 →
        st.usesStdPackage = false ∧
        (tokenPipelineSymStep cfg st tok v o).state.usesStdPackage = true) ∧
    (∀ (st : SymState) (tok : Tok) (v : String) (o : SymOracle),
      (tokenPipelineSymStep cfg st tok v o).stdFallbackFound = true →
        st.usesStdPackage = false →
        (tokenPipelineSymStep cfg st tok v o).state.spliceCount = st.spliceCount + 1 ∧
        (tokenPipelineSymStep cfg st tok v o).state.usesStdPackage = true) := by
  refine ⟨fun evs => ?_, fun st tok v o huse => ?_, fun st tok v o hsp => ?_,
    fun st tok v o => symStep_splice_pos cfg st tok v o⟩
  · have h := symRun_splice_inv cfg evs initSymState (by simp [initSymState])
    rcases hu : (symRun cfg initSymState evs).usesStdPackage with _ | _ <;>
      simp [hu] at h <;> omega
  · rcases symStep_splice_char cfg st tok v o with ⟨h1, _⟩ | ⟨_, h2, _⟩
    · exact h1
    · rw [huse] at h2; exact absurd h2 (by simp)
  · rcases symStep_splice_char cfg st tok v o with ⟨h1, _⟩ | ⟨_, h2, h3⟩
    · omega
    · exact ⟨h2, h3⟩

/-- C3 witness: the splice-count bound applied to a concrete two-event
run in which the second identifier resolves via the std fallback and
splices exactly once, together with the positive splice direction
applied at the initial state — the first fallback-resolved identifier
with the flag clear really does splice (count goes from 0 to 1) and
sets the flag. -/
theorem claim3_witness :
    (symRun { bboxUnsup := false } initSymState
        [{ tok := Tok.yaID__LEX, idStr := "x",
           oracle := { nextIdActive := false, flatResult := none, fallbackResult := none,
                       stdPkgExists := true, stdResult := some NodeKind.Class } },
         { tok := Tok.yaID__LEX, idStr := "y",
           oracle := { nextIdActive := false, flatResult := none, fallbackResult := none,
                       stdPkgExists := true, stdResult := some NodeKind.Class } }]).spliceCount
      ≤ 1 ∧
    ((tokenPipelineSymStep { bboxUnsup := false } initSymState Tok.yaID__LEX "x"
        { nextIdActive := false, flatResult := none, fallbackResult := none,
          stdPkgExists := true, stdResult := some NodeKind.Class }).state.spliceCount
        = initSymState.spliceCount + 1 ∧
      (tokenPipelineSymStep { bboxUnsup := false } initSymState Tok.yaID__LEX "x"
        { nextIdActive := false, flatResult := none, fallbackResult := none,
          stdPkgExists := true, stdResult := some NodeKind.Class }).state.usesStdPackage
        = true) := by
  have hc3 := claim3_theorem { bboxUnsup := false }
  exact ⟨hc3.1 _,
    hc3.2.2.2 initSymState Tok.yaID__LEX "x"
      { nextIdActive := false, flatResult := none, fallbackResult := none,
        stdPkgExists := true, stdResult := some NodeKind.Class } rfl rfl⟩

/-- C3 counterexample.  Run the literal identifier `std` first (token
`yaID__CC`, found by the ordinary lookup): it sets the
used-standard-package flag without splicing.  The next identifier is the
first one in the run to resolve via the std-package fallback
(`stdFallbackFound` is true for it and false for the first event), yet
the whole run performs zero splices — contradicting the claim that the
first identifier resolving via the fallback triggers the splice. -/
theorem claim3_counterexample :
    (tokenPipelineSymStep { bboxUnsup := false } initSymState Tok.yaID__CC "std"
        { nextIdActive := false, flatResult := none, fallbackResult := some NodeKind.Package,
          stdPkgExists := true, stdResult := none }).stdFallbackFound = false ∧
    (tokenPipelineSymStep { bboxUnsup := false }
        (tokenPipelineSymStep { bboxUnsup := false } initSymState Tok.yaID__CC "std"
          { nextIdActive := false, flatResult := none, fallbackResult := some NodeKind.Package,
            stdPkgExists := true, stdResult := none }).state Tok.yaID__LEX "x"
        { nextIdActive := false, flatResult := none, fallbackResult := none,
          stdPkgExists := true, stdResult := some NodeKind.Class }).stdFallbackFound = true ∧
    (symRun { bboxUnsup := false } initSymState
        [{ tok := Tok.yaID__CC, idStr := "std",
           oracle := { nextIdActive := false, flatResult := none,
                       fallbackResult := some NodeKind.Package,
                       stdPkgExists := true, stdResult := none } },
         { tok := Tok.yaID__LEX, idStr := "x",
           oracle := { nextIdActive := false, flatResult := none, fallbackResult := none,
                       stdPkgExists := true, stdResult := some NodeKind.Class } }]).spliceCount
      = 0 := by
  refine ⟨rfl, ?_, ?_⟩ <;> rfl

/-! Claim C5. -/

/-- A colon-colon-qualified identifier that no lookup resolves keeps its
token kind. -/
theorem symStep_cc_notfound (cfg : SymCfg) (st : SymState) (v : String) (o : SymOracle) :
    (tokenPipelineSymStep cfg st Tok.yaID__CC v o).found = none →
      (tokenPipelineSymStep cfg st Tok.yaID__CC v o).token = Tok.yaID__CC := by
  cases hf0 : (if o.nextIdActive then o.flatResult else o.fallbackResult) with
  | none =>
    cases hacc : st.afterColonColon <;> cases hpkg : o.stdPkgExists <;>
      cases hstd : o.stdResult <;>
        simp [tokenPipelineSymStep, hf0, hacc, hpkg, hstd] <;> split_ifs <;> simp_all
  | some k => simp [tokenPipelineSymStep, hf0]

/-- A plain identifier that no lookup resolves is demoted to
`yaID__ETC` and emits no diagnostic. -/
theorem symStep_lex_notfound (cfg : SymCfg) (st : SymState) (v : String) (o : SymOracle) :
    (tokenPipelineSymStep cfg st Tok.yaID__LEX v o).found = none →
      (tokenPipelineSymStep cfg st Tok.yaID__LEX v o).token = Tok.yaID__ETC ∧
      (tokenPipelineSymStep cfg st Tok.yaID__LEX v o).state.diagCount = st.diagCount := by
  cases hf0 : (if o.nextIdActive then o.flatResult else o.fallbackResult) with
  | none =>
    cases hacc : st.afterColonColon <;> cases hpkg : o.stdPkgExists <;>
      cases hstd : o.stdResult <;>
        simp [tokenPipelineSymStep, hf0, hacc, hpkg, hstd] <;> split_ifs <;> simp_all
  | some k => simp [tokenPipelineSymStep, hf0]

/-- C5 (confirmed).  An unresolved colon-colon-qualified identifier
keeps its token kind; the package-not-found diagnostic is emitted at
most once per run, and never when the black-box option is enabled; an
unresolved plain identifier is demoted to `yaID__ETC` with no
diagnostic. -/
theorem claim5_theorem :
    (∀ (cfg : SymCfg) (st : SymState) (v : String) (o : SymOracle),
      (tokenPipelineSymStep cfg st Tok.yaID__CC v o).found = none →
        (tokenPipelineSymStep cfg st Tok.yaID__CC v o).token = Tok.yaID__CC) ∧
    (∀ (cfg : SymCfg) (evs : List SymEvent),
      (symRun cfg initSymState evs).diagCount ≤ 1) ∧
    (∀ (cfg : SymCfg) (evs : List SymEvent), cfg.bboxUnsup = true →
      (symRun cfg initSymState evs).diagCount = 0) ∧
    (∀ (cfg : SymCfg) (st : SymState) (v : String) (o : SymOracle),
      (tokenPipelineSymStep cfg st Tok.yaID__LEX v o).found = none →
        (tokenPipelineSymStep cfg st Tok.yaID__LEX v o).token = Tok.yaID__ETC ∧
        (tokenPipelineSymStep cfg st Tok.yaID__LEX v o).state.diagCount = st.diagCount) := by
  refine ⟨fun cfg st v o => symStep_cc_notfound cfg st v o, fun cfg evs => ?_,
    fun cfg evs hbb => ?_, fun cfg st v o => symStep_lex_notfound cfg st v o⟩
  · have h := symRun_diag_inv cfg evs initSymState (by simp [initSymState])
    omega
  · exact symRun_bbox_diag cfg hbb evs initSymState

/-- C5 witness: an unresolved colon-colon-qualified identifier at a
concrete input keeps kind `yaID__CC`, and a two-event run emitting the
diagnostic twice-over still reports at most one diagnostic. -/
theorem claim5_witness :
    (tokenPipelineSymStep { bboxUnsup := false } initSymState Tok.yaID__CC "Q"
        { nextIdActive := false, flatResult := none, fallbackResult := none,
          stdPkgExists := false, stdResult := none }).token = Tok.yaID__CC ∧
    (symRun { bboxUnsup := false } initSymState
        [{ tok := Tok.yaID__CC, idStr := "Q",
           oracle := { nextIdActive := false, flatResult := none, fallbackResult := none,
                       stdPkgExists := false, stdResult := none } },
         { tok := Tok.yaID__CC, idStr := "R",
           oracle := { nextIdActive := false, flatResult := none, fallbackResult := none,
                       stdPkgExists := false, stdResult := none } }]).diagCount ≤ 1 :=
  ⟨claim5_theorem.1 { bboxUnsup := false } initSymState "Q"
      { nextIdActive := false, flatResult := none, fallbackResult := none,
        stdPkgExists := false, stdResult := none } (by rfl),
    claim5_theorem.2.1 { bboxUnsup := false } _⟩

/-! Claim C1. -/

/-- C1 (corrected).  Miss behaviour of the structural scanners:
the bracket scanner returns the original input position whenever it hits
end of input inside an unclosed group, and otherwise stops at or past
the input at a position not opening another bracket group; the
parameter-group scanner likewise returns the original input position on
end of input inside the group, returns the input when the first token is
not `#`, and otherwise stops just past a closing parenthesis; the
type-reference scanner returns the input when the scanned position does
not hold `(`, but inside a group it stops either just past the closing
parenthesis or — on end of input — at the sentinel position itself
(not the input position); the spec's bracket test vectors hold. -/
theorem claim1_theorem :
    (∀ (s : List Tok) (inD depth bra : Nat), inD ≤ depth →
      scanBracketLoop s inD depth bra = inD ∨
        (depth ≤ scanBracketLoop s inD depth bra ∧
          tokenPeek s (scanBracketLoop s inD depth bra) ≠ Tok.lbrack)) ∧
    (∀ (s : List Tok) (inD depth parens : Nat), inD < depth →
      scanParamLoop s inD depth parens = inD ∨
        (depth < scanParamLoop s inD depth parens ∧
          tokenPeek s (scanParamLoop s inD depth parens - 1) = Tok.rparen)) ∧
    (∀ (s : List Tok) (d : Nat) (c : Bool),
      tokenPeek s d ≠ Tok.hash → tokenPipeScanParam s d c = d) ∧
    (∀ (s : List Tok) (d : Nat),
      tokenPeek s d ≠ Tok.lparen → tokenPipeScanTypeEq s d = d) ∧
    (∀ (s : List Tok) (depth parens : Nat),
      depth ≤ scanTypeEqLoop s depth parens ∧
        (tokenPeek s (scanTypeEqLoop s depth parens - 1) = Tok.rparen ∨
          tokenPeek s (scanTypeEqLoop s depth parens) = Tok.eof)) ∧
    tokenPipeScanBracket [Tok.lbrack, Tok.yaID__LEX, Tok.rbrack, Tok.lbrack,
      Tok.yaID__LEX, Tok.rbrack, Tok.lparen] 0 = 6 ∧
    tokenPipeScanBracket [Tok.lbrack, Tok.yaID__LEX, Tok.lparen] 0 = 0 ∧
    tokenPipeScanParam [Tok.hash, Tok.lparen, Tok.yaID__LEX] 0 false = 0 := by
  refine ⟨scanBracketLoop_cases, scanParamLoop_cases, ?_, ?_, scanTypeEqLoop_cases,
    ?_, ?_, ?_⟩
  · intro s d c h
    unfold tokenPipeScanParam
    simp [h]
  · intro s d h
    unfold tokenPipeScanTypeEq
    simp [h]
  · simp [tokenPipeScanBracket, scanBracketLoop, tokenPeek]
  · simp [tokenPipeScanBracket, scanBracketLoop, tokenPeek]
  · simp [tokenPipeScanParam, scanParamLoop, tokenPeek]

/-- C1 witness: the bracket-loop characterization applied at a concrete
unclosed input `[ a (` from depth 0, where the scan misses and returns
the input position. -/
theorem claim1_witness :
    scanBracketLoop [Tok.lbrack, Tok.yaID__LEX, Tok.lparen] 0 0 0 = 0 ∨
      (0 ≤ scanBracketLoop [Tok.lbrack, Tok.yaID__LEX, Tok.lparen] 0 0 0 ∧
        tokenPeek [Tok.lbrack, Tok.yaID__LEX, Tok.lparen]
          (scanBracketLoop [Tok.lbrack, Tok.yaID__LEX, Tok.lparen] 0 0 0) ≠ Tok.lbrack) :=
  claim1_theorem.1 [Tok.lbrack, Tok.yaID__LEX, Tok.lparen] 0 0 0 (le_refl 0)

/-- C1 counterexample.  `TypeRefGroupScan` over the stream `(` followed
by end of input, started at position 0, hits the sentinel inside the
unclosed group and returns position 1 — the sentinel's position — not
the original input position 0, contradicting the claim that every
scanner returns the original input position on such a miss. -/
theorem claim1_counterexample :
    tokenPipeScanTypeEq [Tok.lparen] 0 = 1 ∧
    tokenPeek [Tok.lparen] 1 = Tok.eof ∧
    tokenPipeScanTypeEq [Tok.lparen] 0 ≠ 0 := by
  refine ⟨?_, rfl, ?_⟩ <;> simp [tokenPipeScanTypeEq, scanTypeEqLoop, tokenPeek]

/-! Claim C4. -/

/-- Under the preceding-token guard, the identifier reclassifier yields
`yaID__aCELL` exactly when the cell-instantiation scan from position 0
hits. -/
theorem tokenPipelineId_cell_iff (s : List Tok) (lastBison : Tok)
    (h1 : lastBison ≠ Tok.atSign) (h2 : lastBison ≠ Tok.hash) (h3 : lastBison ≠ Tok.dot) :
    tokenPipelineId s lastBison = Tok.yaID__aCELL ↔ tokenPipeScanIdCell s 0 ≠ 0 := by
  unfold tokenPipelineId
  by_cases hcc : tokenPeek s 0 = Tok.yP_COLONCOLON
  · have hzero : tokenPipeScanIdCell s 0 = 0 := by
      unfold tokenPipeScanIdCell tokenPipeScanParam
      simp [hcc]
    simp [hcc, hzero]
  · by_cases hcell : tokenPipeScanIdCell s 0 = 0
    · simp only [hcc, hcell, h1, h2, h3, ne_eq, not_false_eq_true, and_self, true_and,
        if_false, ite_false, not_true_eq_false, and_false, false_and, if_neg]
      split_ifs <;> simp [hcell]
    · simp [hcc, hcell, h1, h2, h3]

/-- C4 (confirmed).  For a plain identifier token with the previously
finalized token none of `@`, `#`, `.`: the pipeline defers to
`tokenPipelineId`, and the token becomes identifier-as-cell exactly when
the scanners recognize the cell-instantiation shape — optional
parameter group, an identifier, optional bracket groups, then `(`; the
spec's `foo bar (` and `foo bar ;` examples behave as claimed. -/
theorem claim4_theorem :
    (∀ (s : List Tok) (v : String) (lastBison : Tok) (pedantic : Bool),
      lastBison ≠ Tok.atSign → lastBison ≠ Tok.hash → lastBison ≠ Tok.dot →
        ((tokenPipeline { token := Tok.yaID__LEX, strp := v } s lastBison pedantic).token
            = tokenPipelineId s lastBison ∧
          (tokenPipelineId s lastBison = Tok.yaID__aCELL ↔
            (tokenPeek s (tokenPipeScanParam s 0 true) = Tok.yaID__LEX ∧
              tokenPeek s (tokenPipeScanBracket s (tokenPipeScanParam s 0 true + 1))
                = Tok.lparen)))) ∧
    tokenPipelineId [Tok.yaID__LEX, Tok.lparen] Tok.semi = Tok.yaID__aCELL ∧
    tokenPipelineId [Tok.yaID__LEX, Tok.semi] Tok.semi = Tok.yaID__LEX := by
  refine ⟨fun s v lastBison pedantic h1 h2 h3 => ⟨?_, ?_⟩, ?_, ?_⟩
  · simp [tokenPipeline]
  · exact (tokenPipelineId_cell_iff s lastBison h1 h2 h3).trans
      (tokenPipeScanIdCell_ne_zero_iff s)
  · simp [tokenPipelineId, tokenPipeScanIdCell, tokenPipeScanParam, tokenPipeScanBracket,
      scanBracketLoop, tokenPeek]
  · simp [tokenPipelineId, tokenPipeScanIdCell, tokenPipeScanParam, tokenPipeScanBracket,
      scanBracketLoop, tokenPeek]

/-- C4 witness: the pipeline/shape equivalence applied at the concrete
stream of `foo bar (` (the pending stream after `foo`), with the
preceding-token hypotheses discharged for `;`. -/
theorem claim4_witness :
    (tokenPipeline { token := Tok.yaID__LEX, strp := "foo" } [Tok.yaID__LEX, Tok.lparen]
        Tok.semi false).token = tokenPipelineId [Tok.yaID__LEX, Tok.lparen] Tok.semi ∧
    (tokenPipelineId [Tok.yaID__LEX, Tok.lparen] Tok.semi = Tok.yaID__aCELL ↔
      (tokenPeek [Tok.yaID__LEX, Tok.lparen]
          (tokenPipeScanParam [Tok.yaID__LEX, Tok.lparen] 0 true) = Tok.yaID__LEX ∧
        tokenPeek [Tok.yaID__LEX, Tok.lparen]
          (tokenPipeScanBracket [Tok.yaID__LEX, Tok.lparen]
            (tokenPipeScanParam [Tok.yaID__LEX, Tok.lparen] 0 true + 1)) = Tok.lparen)) :=
  claim4_theorem.1 [Tok.yaID__LEX, Tok.lparen] "foo" Tok.semi false
    (by simp) (by simp) (by simp)

/-! Claim C7. -/

/-- C7 (confirmed).  A raw `global` keyword becomes global-clocking when
`clocking` follows; otherwise, in pedantic mode, global-other; otherwise
it is demoted to a plain identifier whose payload is the literal string
"global". -/
theorem claim7_theorem (v : String) (s : List Tok) (lastBison : Tok) (pedantic : Bool) :
    (tokenPeek s 0 = Tok.yCLOCKING →
      tokenPipeline { token := Tok.yGLOBAL__LEX, strp := v } s lastBison pedantic
        = { token := Tok.yGLOBAL__CLOCKING, strp := v }) ∧
    (tokenPeek s 0 ≠ Tok.yCLOCKING → pedantic = true →
      tokenPipeline { token := Tok.yGLOBAL__LEX, strp := v } s lastBison pedantic
        = { token := Tok.yGLOBAL__ETC, strp := v }) ∧
    (tokenPeek s 0 ≠ Tok.yCLOCKING → pedantic = false →
      tokenPipeline { token := Tok.yGLOBAL__LEX, strp := v } s lastBison pedantic
        = { token := Tok.yaID__LEX, strp := "global" }) := by
  refine ⟨fun h => ?_, fun h hp => ?_, fun h hp => ?_⟩
  · simp [tokenPipeline, h]
  · simp [tokenPipeline, h, hp]
  · simp [tokenPipeline, h, hp]

/-- C7 witness: `global x` in non-pedantic mode (the pending stream
holds a plain identifier, not `clocking`) demotes to the plain
identifier literal "global". -/
theorem claim7_witness :
    tokenPipeline { token := Tok.yGLOBAL__LEX, strp := "g" } [Tok.yaID__LEX] Tok.semi false
      = { token := Tok.yaID__LEX, strp := "global" } :=
  by
  have h7 := claim7_theorem "g" [Tok.yaID__LEX] Tok.semi false
  exact h7.2.2 (by simp [tokenPeek]) rfl

/-! Claim C8. -/

/-- C8 (corrected).  A raw `type` keyword becomes type-as-expression
exactly when the token at the position returned by the type-reference
scan is one of `==`, `!=`, `===`, `!==` — where on a miss (next token
not `(`) that position is the token immediately after `type`, and on end
of input inside the group it is the sentinel position; in every other
case the token becomes type-as-typespec; the spec's two concrete
examples hold. -/
theorem claim8_theorem (v : String) (s : List Tok) (lastBison : Tok) (pedantic : Bool) :
    ((tokenPipeline { token := Tok.yTYPE__LEX, strp := v } s lastBison pedantic).token
        = Tok.yTYPE__EQ ↔
      (tokenPeek s (tokenPipeScanTypeEq s 0) = Tok.yP_EQUAL ∨
        tokenPeek s (tokenPipeScanTypeEq s 0) = Tok.yP_NOTEQUAL ∨
        tokenPeek s (tokenPipeScanTypeEq s 0) = Tok.yP_CASEEQUAL ∨
        tokenPeek s (tokenPipeScanTypeEq s 0) = Tok.yP_CASENOTEQUAL)) ∧
    ((tokenPipeline { token := Tok.yTYPE__LEX, strp := v } s lastBison pedantic).token
        = Tok.yTYPE__EQ ∨
      (tokenPipeline { token := Tok.yTYPE__LEX, strp := v } s lastBison pedantic).token
        = Tok.yTYPE__ETC) ∧
    (tokenPipeline { token := Tok.yTYPE__LEX, strp := v }
        [Tok.lparen, Tok.yaID__LEX, Tok.rparen, Tok.yP_EQUAL, Tok.yTYPE__LEX, Tok.lparen,
          Tok.yaID__LEX, Tok.rparen] lastBison pedantic).token = Tok.yTYPE__EQ ∧
    (tokenPipeline { token := Tok.yTYPE__LEX, strp := v }
        [Tok.lparen, Tok.yaID__LEX, Tok.rparen, Tok.yaID__LEX] lastBison pedantic).token
      = Tok.yTYPE__ETC := by
  refine ⟨?_, ?_, ?_, ?_⟩
  · by_cases h : tokenPeek s (tokenPipeScanTypeEq s 0) = Tok.yP_EQUAL ∨
        tokenPeek s (tokenPipeScanTypeEq s 0) = Tok.yP_NOTEQUAL ∨
        tokenPeek s (tokenPipeScanTypeEq s 0) = Tok.yP_CASEEQUAL ∨
        tokenPeek s (tokenPipeScanTypeEq s 0) = Tok.yP_CASENOTEQUAL <;>
      simp [tokenPipeline, h]
  · by_cases h : tokenPeek s (tokenPipeScanTypeEq s 0) = Tok.yP_EQUAL ∨
        tokenPeek s (tokenPipeScanTypeEq s 0) = Tok.yP_NOTEQUAL ∨
        tokenPeek s (tokenPipeScanTypeEq s 0) = Tok.yP_CASEEQUAL ∨
        tokenPeek s (tokenPipeScanTypeEq s 0) = Tok.yP_CASENOTEQUAL <;>
      simp [tokenPipeline, h]
  · simp [tokenPipeline, tokenPipeScanTypeEq, scanTypeEqLoop, tokenPeek]
  · simp [tokenPipeline, tokenPipeScanTypeEq, scanTypeEqLoop, tokenPeek]

/-- C8 counterexample.  With the stream `==` right after `type` there is
no parenthesized group at all (the scan cannot complete one), yet the
token becomes type-as-expression, contradicting the claim that every
such case yields type-as-typespec. -/
theorem claim8_counterexample :
    (tokenPipeline { token := Tok.yTYPE__LEX, strp := "t" } [Tok.yP_EQUAL] Tok.semi
        false).token = Tok.yTYPE__EQ ∧
    tokenPeek [Tok.yP_EQUAL] 0 ≠ Tok.lparen := by
  constructor
  · simp [tokenPipeline, tokenPipeScanTypeEq, tokenPeek]
  · simp [tokenPeek]

/-! Claim C9. -/

/-- C9 (confirmed).  A save, any mutation of the current suppression
state, then a restore yields back exactly the state at the save (the
snapshot is popped); a restore on an empty stack emits the
"without matching save" diagnostic and changes neither the stack nor
the current suppression state. -/
theorem claim9_theorem (m : LintModel) (w : List String) :
    lexVerilatorCmtLintRestore { lexVerilatorCmtLintSave m with cur := w } = m ∧
    (m.stack = [] →
      lexVerilatorCmtLintRestore m = { m with errCount := m.errCount + 1 }) := by
  constructor
  · rfl
  · intro h
    cases m with
    | mk cur stack errCount =>
      cases h
      rfl

/-- C9 witness: the empty-stack restore at a concrete state emits the
diagnostic and leaves both the suppression state and the stack
unchanged; the save/mutate/restore round trip at a concrete state
restores the saved suppression set. -/
theorem claim9_witness :
    lexVerilatorCmtLintRestore { cur := ["UNUSED"], stack := [], errCount := 0 }
      = { cur := ["UNUSED"], stack := [], errCount := 1 } ∧
    lexVerilatorCmtLintRestore
        { lexVerilatorCmtLintSave { cur := ["UNUSED"], stack := [], errCount := 0 } with
          cur := ["WIDTH"] }
      = { cur := ["UNUSED"], stack := [], errCount := 0 } :=
  ⟨(claim9_theorem { cur := ["UNUSED"], stack := [], errCount := 0 } []).2 rfl,
    (claim9_theorem { cur := ["UNUSED"], stack := [], errCount := 0 } ["WIDTH"]).1⟩

/-! Claim C10. -/

/-- One call delivers at most `maxSize - got` further bytes. -/
theorem ppInputToLexLoop_length (maxSize : Nat) :
    ∀ (bufs : List (List Char)) (got : Nat),
      (ppInputToLexLoop maxSize got bufs).1.length ≤ maxSize - got := by
  intro bufs
  induction bufs with
  | nil => intro got; simp [ppInputToLexLoop]
  | cons front rest ih =>
    intro got
    by_cases h1 : got < maxSize
    · by_cases h2 : front.length > maxSize - got
      · simp [ppInputToLexLoop, h1, h2]
      · have hr := ih (got + front.length)
        simp only [ppInputToLexLoop, if_pos h1, if_neg h2, List.length_append]
        omega
    · simp [ppInputToLexLoop, h1]

/-- One call preserves the byte sequence: the delivered bytes followed
by the bytes still buffered are exactly the bytes buffered before. -/
theorem ppInputToLexLoop_concat (maxSize : Nat) :
    ∀ (bufs : List (List Char)) (got : Nat),
      (ppInputToLexLoop maxSize got bufs).1
          ++ ((ppInputToLexLoop maxSize got bufs).2).flatten
        = bufs.flatten := by
  intro bufs
  induction bufs with
  | nil => intro got; simp [ppInputToLexLoop]
  | cons front rest ih =>
    intro got
    by_cases h1 : got < maxSize
    · by_cases h2 : front.length > maxSize - got
      · simp only [ppInputToLexLoop, if_pos h1, if_neg (not_not_intro h2), if_pos h2,
          List.flatten_cons]
        rw [← List.append_assoc, List.take_append_drop]
      · simp only [ppInputToLexLoop, if_pos h1, if_neg h2, List.flatten_cons]
        rw [List.append_assoc, ih (got + front.length)]
    · simp [ppInputToLexLoop, h1]

/-- C10 (corrected).  Every call delivers at most `max_size` bytes; the
byte stream is preserved — what one call delivers, followed by what
remains buffered, is exactly what was buffered, and over any sequence of
calls the delivered bytes are the concatenation of the original buffers
in order, nothing lost, duplicated or reordered; and provided `max_size`
is positive and no buffered string is empty, a call returns zero bytes
exactly when the buffer list is empty. -/
theorem claim10_theorem :
    (∀ (bufs : List (List Char)) (maxSize : Nat),
      (ppInputToLex bufs maxSize).1.length ≤ maxSize) ∧
    (∀ (bufs : List (List Char)) (maxSize : Nat),
      (ppInputToLex bufs maxSize).1 ++ ((ppInputToLex bufs maxSize).2).flatten
        = bufs.flatten) ∧
    (∀ (ms : List Nat) (bufs : List (List Char)),
      (ppRun ms bufs).1 ++ ((ppRun ms bufs).2).flatten = bufs.flatten) ∧
    (∀ (bufs : List (List Char)) (maxSize : Nat), 0 < maxSize →
      (∀ b ∈ bufs, b ≠ []) →
      ((ppInputToLex bufs maxSize).1 = [] ↔ bufs = [])) := by
  have hrun : ∀ (ms : List Nat) (bufs : List (List Char)),
      (ppRun ms bufs).1 ++ ((ppRun ms bufs).2).flatten = bufs.flatten := by
    intro ms
    induction ms with
    | nil => intro bufs; simp [ppRun]
    | cons m rest ih =>
      intro bufs
      simp only [ppRun]
      rw [List.append_assoc, ih]
      exact ppInputToLexLoop_concat m bufs 0
  refine ⟨fun bufs maxSize => ?_, fun bufs maxSize => ppInputToLexLoop_concat maxSize bufs 0,
    hrun, fun bufs maxSize hm hne => ?_⟩
  · have := ppInputToLexLoop_length maxSize bufs 0
    simpa [ppInputToLex] using this
  · cases bufs with
    | nil => simp [ppInputToLex, ppInputToLexLoop]
    | cons front rest =>
      have hfront : front ≠ [] := hne front (by simp)
      simp only [ppInputToLex]
      constructor
      · intro h
        exfalso
        by_cases h2 : front.length > maxSize - 0
        · simp only [ppInputToLexLoop, if_pos (by omega : (0:Nat) < maxSize),
            if_pos h2] at h
          rw [List.take_eq_nil_iff] at h
          rcases h with h | h
          · omega
          · exact hfront h
        · simp only [ppInputToLexLoop, if_pos (by omega : (0:Nat) < maxSize),
            if_neg h2] at h
          exact hfront (List.append_eq_nil.mp h).1
      · intro h
        cases h

/-- C10 witness: the length bound and the byte-preservation equality
applied at a concrete two-buffer state drained by a call of capacity 3,
with the nonempty-buffers equivalence discharged there. -/
theorem claim10_witness :
    (ppInputToLex [['a', 'b'], ['c', 'd']] 3).1.length ≤ 3 ∧
    (ppInputToLex [['a', 'b'], ['c', 'd']] 3).1
        ++ ((ppInputToLex [['a', 'b'], ['c', 'd']] 3).2).flatten
      = ([['a', 'b'], ['c', 'd']] : List (List Char)).flatten ∧
    ((ppInputToLex [['a', 'b'], ['c', 'd']] 3).1 = [] ↔
      ([['a', 'b'], ['c', 'd']] : List (List Char)) = []) :=
  ⟨claim10_theorem.1 [['a', 'b'], ['c', 'd']] 3,
    claim10_theorem.2.1 [['a', 'b'], ['c', 'd']] 3,
    claim10_theorem.2.2.2 [['a', 'b'], ['c', 'd']] 3 (by omega) (by simp)⟩

/-- C10 counterexample.  With an empty string buffered, a call with
positive capacity returns zero bytes although the buffer list is not
empty — contradicting the claim that a zero return happens exactly when
the list is empty. -/
theorem claim10_counterexample :
    (ppInputToLex [([] : List Char)] 1).1.length = 0 ∧
    ([([] : List Char)] : List (List Char)) ≠ [] := by
  constructor
  · rfl
  · simp

/-! Claim C6. -/

/-- C6 (confirmed).  For the source-location stack: entering regions A
then B (with the lexer advancing the content-line counter by `k1` and
`k2` in between) and then exiting twice restores a top whose filename,
line number and suppression state are the original top's, with the
content-line counter carried forward continuously (original counter plus
`k1 + k2`); the final top is a freshly allocated node; an exit whose top
has a parent replaces the top with a fresh copy (the new top is the
fresh index, never the parent's index, and all pre-existing nodes are
unchanged); an exit whose top has no parent leaves the state as is. -/
theorem claim6_theorem (applyIg : String → Int → List String → List String)
    (fA fB : String) (lA lB : Int) (k1 k2 : Nat) (s : FLState) :
    (let s4 := onDirectiveExit (onDirectiveExit (flBumpContent k2
        (onDirectiveEnter applyIg fB lB (flBumpContent k1
          (onDirectiveEnter applyIg fA lA s)))))
     (getFl s4 s4.top).filename = (getFl s s.top).filename ∧
     (getFl s4 s4.top).lineno = (getFl s s.top).lineno ∧
     (getFl s4 s4.top).warns = (getFl s s.top).warns ∧
     (getFl s4 s4.top).contentLineno = (getFl s s.top).contentLineno + k1 + k2 ∧
     s4.top = s.size + 5 ∧ s4.size = s.size + 6) ∧
    (∀ t : FLState, (getFl t t.top).parent = none → onDirectiveExit t = t) ∧
    (∀ (t : FLState) (p : Nat), (getFl t t.top).parent = some p →
      (onDirectiveExit t).top = t.size ∧ (onDirectiveExit t).size = t.size + 1 ∧
      (p < t.size → (onDirectiveExit t).top ≠ p) ∧
      (∀ i, i < t.size → getFl (onDirectiveExit t) i = getFl t i)) := by
  refine ⟨?_, fun t h => ?_, fun t p h => ?_⟩
  · have h2 : s.size ≠ s.size + 1 + 1 := by omega
    have h3 : s.size ≠ s.size + 1 + 1 + 1 := by omega
    have h4 : s.size ≠ s.size + 1 + 1 + 1 + 1 := by omega
    simp only [onDirectiveExit, onDirectiveEnter, lexPpline, lexPplineEnter, lexPplineExit,
      lexLineChange, flBumpContent, flAlloc, getFl]
    norm_num [h2, h3, h4]
  · unfold onDirectiveExit lexPplineExit
    dsimp only
    rw [h]
  · unfold onDirectiveExit lexPplineExit
    dsimp only
    rw [h]
    refine ⟨rfl, rfl, fun hp => by simp only [flAlloc]; omega, fun i hi => ?_⟩
    simp only [flAlloc, getFl]
    rw [if_neg (by omega)]

/-- C6 witness: the exit behaviour applied at a concrete two-node state
whose top has a parent — the new top is the fresh node 2, not the
parent node 0 — and the no-parent exit applied at a concrete
single-node state leaves it unchanged. -/
theorem claim6_witness :
    ((onDirectiveExit flStateTwo).top = 2 ∧ (onDirectiveExit flStateTwo).top ≠ 0) ∧
    onDirectiveExit flStateOne = flStateOne := by
  have h := claim6_theorem (fun _ _ w => w) "A" "B" 1 2 0 0 flStateOne
  refine ⟨?_, h.2.1 flStateOne rfl⟩
  have h3 := h.2.2 flStateTwo 0 (by simp [getFl, flStateTwo, flNodeInc])
  exact ⟨h3.1, h3.2.2.1 (by simp [flStateTwo])⟩

end VerilatorParse
